import Mathlib

/-!
Verification development for the checknam-app domain scanner.

The repository is a React single-page app (several near-duplicate variants of
the same component live side by side), a small Express relay (proxy.js) and a
serverless relay (api/cdx.js).  The pure computational core of each variant is
embedded below, translated function by function from the JavaScript source:

* namespace V1      : the extractor of src/src/App.jsx lines 9-42 and its
                      fetchFirstLastYears span logic (lines 62-83);
* namespace V2      : parseDomains (lines 419-428) and checkWayback
                      (lines 431-444) of the second variant;
* namespace V3      : isValidHostname (707-712) and the token-normalisation
                      pass of extractDomainsFromText (715-754);
* namespace V4      : the enrichment span formatting (1103-1106) and the
                      per-domain retry loop of scanDomainsParallel (1155-1188);
* namespace PartOne : src/unnamed/part_001 - extractDomainsFromText,
                      enrichByCDX, checkDomainTwice, startScan and exportCSV.

Machine integers do not occur (all JS numbers in play are small naturals or
small integers); strings are modelled as Lean String / List Char (the inputs
of interest are ASCII, where JS toLowerCase / trim / \s agree with the ASCII
operations used here).  Network calls are suspension points: every embedded
function takes the outcome of its HTTP calls as an explicit argument.
-/

namespace Checknam

/- ===== JS string helpers (ASCII scope) ===== -/

/-- Characters matched by the splitting regex of the extractors,
/\r?\n|,|\s+/ : ASCII whitespace (space, tab, CR, LF, VT, FF) or a comma.
Splitting on this regex, then trimming and dropping empty pieces, yields
exactly the maximal runs of non-delimiter characters. -/
def isJsDelim (c : Char) : Bool :=
  c = ' ' || c = '\t' || c = '\n' || c = '\r' || c = '\x0b' || c = '\x0c' || c = ','

/-- ASCII whitespace, as matched by the JS \s class and String.prototype.trim. -/
def isJsSpaceChar (c : Char) : Bool :=
  c = ' ' || c = '\t' || c = '\n' || c = '\r' || c = '\x0b' || c = '\x0c'

def splitRunsAux (p : Char → Bool) : List Char → List Char → List (List Char)
  | [], acc => if acc.isEmpty then [] else [acc.reverse]
  | c :: cs, acc =>
    if p c then
      (if acc.isEmpty then splitRunsAux p cs [] else acc.reverse :: splitRunsAux p cs [])
    else splitRunsAux p cs (c :: acc)

/-- Maximal runs of characters not satisfying p. -/
def splitRuns (p : Char → Bool) (l : List Char) : List (List Char) :=
  splitRunsAux p l []

def splitOnCharAux (sep : Char) : List Char → List Char → List (List Char)
  | [], acc => [acc.reverse]
  | c :: cs, acc =>
    if c = sep then acc.reverse :: splitOnCharAux sep cs []
    else splitOnCharAux sep cs (c :: acc)

/-- JS String.prototype.split with a single-character separator
(empty pieces are kept). -/
def splitOnChar (sep : Char) (l : List Char) : List (List Char) :=
  splitOnCharAux sep l []

def dedupAux : List String → List String → List String
  | [], _ => []
  | x :: xs, seen => if x ∈ seen then dedupAux xs seen else x :: dedupAux xs (x :: seen)

/-- Array.from(new Set(xs)) : first-occurrence-preserving deduplication. -/
def jsSetDedup (l : List String) : List String := dedupAux l []

def lowerChars (l : List Char) : List Char := l.map Char.toLower

/-- JS toLowerCase, restricted to ASCII input. -/
def jsToLower (s : String) : String := String.mk (lowerChars s.data)

/-- JS String.prototype.trim, restricted to ASCII whitespace. -/
def jsTrim (s : String) : String :=
  String.mk ((s.data.dropWhile isJsSpaceChar).reverse.dropWhile isJsSpaceChar).reverse

def listStartsWith : List Char → List Char → Bool
  | [], _ => true
  | _ :: _, [] => false
  | p :: ps, c :: cs => p = c && listStartsWith ps cs

def isAlnumChar (c : Char) : Bool := c.isAlpha || c.isDigit

def digitsToNat (cs : List Char) : Nat :=
  cs.foldl (fun n c => n * 10 + (c.toNat - 48)) 0

/-- JS Number(s), modelled on the domain actually reached by the code:
year strings sliced from timestamps.  A nonempty all-digit string parses to
its value; anything else is NaN (none).  (JS maps the empty string to 0, but
every call site guards against the empty string first.) -/
def jsNumber (s : String) : Option Int :=
  if !s.data.isEmpty && s.data.all Char.isDigit then some (digitsToNat s.data) else none

/-- Math.round (a / b) for natural a and positive b: round half up. -/
def jsRoundDiv (a b : Nat) : Nat := (2 * a + b) / (2 * b)

/-- JS (x || null) on an optional string: the empty string is falsy. -/
def jsOrNullStr : Option String → Option String
  | some s => if s = "" then none else some s
  | none => none

/- ===== Shared extraction pipeline =====
The first three steps of extractDomainsFromText are letter-for-letter
identical in App.jsx lines 9-42, App.jsx lines 1021-1036 and part_001. -/

/-- Email test of the extractor: /^[^@\s]+@[^@\s]+\.[^@\s]+$/ .  A token (it
contains no whitespace by construction of the tokenizer) matches iff it has
exactly one at-sign, a nonempty local part, and a domain part with a dot that
has at least one character on each side. -/
def isEmailTok (t : List Char) : Bool :=
  match splitOnChar '@' t with
  | [l, r] =>
    !l.isEmpty && decide (3 ≤ r.length) && ((r.drop 1).dropLast.any (fun c => c = '.'))
  | _ => false

/-- Test of /^https?:\/\//i . -/
def isHttpTok (t : List Char) : Bool :=
  listStartsWith ("http://".data) (lowerChars t) ||
    listStartsWith ("https://".data) (lowerChars t)

/-- Portion of a list after its last at-sign (the whole list if none). -/
def afterLastAt (l : List Char) : List Char :=
  (l.reverse.takeWhile (fun c => c ≠ '@')).reverse

/-- new URL(tok).hostname for an http(s) URL token (WHATWG model, ASCII
scope, no IPv6 literals): drop the scheme, keep the authority up to the first
of / ? #, drop userinfo and port, lower-case.  none models the constructor
throwing (empty host), which the extractor catches by keeping the token. -/
def jsUrlHostname (t : List Char) : Option (List Char) :=
  let lt := lowerChars t
  let sLen := if listStartsWith ("https://".data) lt then 8
              else if listStartsWith ("http://".data) lt then 7 else 0
  if sLen = 0 then none
  else
    let auth := (t.drop sLen).takeWhile (fun c => c ≠ '/' && c ≠ '?' && c ≠ '#')
    let host := (afterLastAt auth).takeWhile (fun c => c ≠ ':')
    if host.isEmpty then none else some (lowerChars host)

/-- Step 2 of the extractor: email tokens keep the part after the at-sign,
URL tokens keep new URL(tok).hostname (falling back to the token when the
constructor throws), anything else passes through. -/
def normalizeTok (t : List Char) : List Char :=
  if isEmailTok t then
    match splitOnChar '@' t with
    | _ :: r :: _ => r
    | _ => t
  else if isHttpTok t then
    match jsUrlHostname t with
    | some h => h
    | none => t
  else t

/-- s.replace(/^(https?:\/\/)?(www\.)?/i, "") . -/
def stripSchemeWww (s : List Char) : List Char :=
  let ls := lowerChars s
  let s1 := if listStartsWith ("https://".data) ls then s.drop 8
            else if listStartsWith ("http://".data) ls then s.drop 7 else s
  if listStartsWith ("www.".data) (lowerChars s1) then s1.drop 4 else s1

/-- s.replace(/[\/?#].*$/, "") . -/
def truncAtSep (s : List Char) : List Char :=
  s.takeWhile (fun c => c ≠ '/' && c ≠ '?' && c ≠ '#')

/-- Steps 1-3 of extractDomainsFromText, shared by all variants. -/
def strippedTokens (input : String) : List (List Char) :=
  ((splitRuns isJsDelim input.data).map normalizeTok).map
    (fun s => truncAtSep (stripSchemeWww s))

/-- One label of the domain regex (with the /i flag):
[a-z0-9](?:[a-z0-9-]{0,61}[a-z0-9])? . -/
def validLabel (l : List Char) : Bool :=
  match l.head?, l.getLast? with
  | some a, some b =>
    decide (l.length ≤ 63) && isAlnumChar a && isAlnumChar b &&
      l.all (fun c => isAlnumChar c || c = '-')
  | _, _ => false

/-- domainRe = /^(?=.{1,253}$)(?:(?:[a-z0-9](?:[a-z0-9-]{0,61}[a-z0-9])?)\.)+[a-z]{2,}$/i :
total length 1..253, at least two dot-separated labels, every label before
the last valid, and an alphabetic final label of length at least 2. -/
def domainReTest (s : String) : Bool :=
  let cs := s.data
  let labels := splitOnChar '.' cs
  decide (1 ≤ cs.length) && decide (cs.length ≤ 253) &&
    decide (2 ≤ labels.length) && labels.dropLast.all validLabel &&
    (let tld := labels.getLastD []
     decide (2 ≤ tld.length) && tld.all Char.isAlpha)

namespace V1

/-- extractDomainsFromText of src/src/App.jsx lines 9-42.  Note the order of
the final steps: the Set-based deduplication runs BEFORE lower-casing. -/
def extractDomainsFromText (input : String) : List String :=
  if input = "" then []
  else
    (((jsSetDedup ((strippedTokens input).map String.mk)).map jsToLower).filter
      (fun s => domainReTest s)).take 1000

/-- The yearsSpan computation of fetchFirstLastYears (App.jsx lines 62-83):
null sentinel, "N years" when both years are truthy strings. -/
def yearsSpanOf (firstYear lastYear : Option String) : Option String :=
  match firstYear, lastYear with
  | some f, some l =>
    if f ≠ "" ∧ l ≠ "" then
      match jsNumber l, jsNumber f with
      | some a, some b => some (toString (a - b) ++ " years")
      | _, _ => some "NaN years"
    else none
  | _, _ => none

end V1

namespace PartOne

/-- extractDomainsFromText of src/unnamed/part_001 (identical to App.jsx
lines 1021-1036): identical pipeline to V1, but tokens are lower-cased
BEFORE the Set-based deduplication, and validation runs after. -/
def extractDomainsFromText (input : String) : List String :=
  if input = "" then []
  else
    ((jsSetDedup ((strippedTokens input).map (fun l => jsToLower (String.mk l)))).filter
      (fun s => domainReTest s)).take 1000

end PartOne

namespace V2

/-- parseDomains of src/src/App.jsx lines 419-428: split, trim, drop empties,
strip an optional scheme and www. prefix, deduplicate, cap at 1000.  No
validation, no email handling, no lower-casing, no path truncation. -/
def parseDomains (input : String) : List String :=
  (jsSetDedup ((splitRuns isJsDelim input.data).map
    (fun t => String.mk (stripSchemeWww t)))).take 1000

/-- Result object of checkWayback (App.jsx lines 431-444). -/
structure WaybackResult where
  archived : Bool
  status : String
  timestamp : Option String
  url : Option String
  available : String
  deriving DecidableEq

/-- checkWayback of src/src/App.jsx lines 431-444, as a function of the
parsed availability response: closest is the optional
archived_snapshots.closest object (url, timestamp), dataUrl the optional
top-level url field, reqUrl the queried url. -/
def checkWayback (closest : Option (String × String)) (dataUrl : Option String)
    (reqUrl : String) : WaybackResult :=
  { archived := closest.isSome
  , status := if closest.isSome then "archived" else "not_found"
  , timestamp := jsOrNullStr (closest.map (fun c => c.2))
  , url := jsOrNullStr (closest.map (fun c => c.1))
  , available := match jsOrNullStr dataUrl with
                 | some u => u
                 | none => reqUrl }

end V2

namespace V3

def isLowerAlnum (c : Char) : Bool := c.isLower || c.isDigit

/-- Label regex of isValidHostname: /^[a-z0-9](?:[a-z0-9-]{0,61}[a-z0-9])?$/
(lower-case only, no /i flag). -/
def lowerLabel (l : List Char) : Bool :=
  match l.head?, l.getLast? with
  | some a, some b =>
    decide (l.length ≤ 63) && isLowerAlnum a && isLowerAlnum b &&
      l.all (fun c => isLowerAlnum c || c = '-')
  | _, _ => false

/-- isValidHostname of src/src/App.jsx lines 707-712.  Note: it accepts a
single label (no dot required) — "localhost"-style tokens pass. -/
def isValidHostname (h : String) : Bool :=
  if h = "" then false
  else if 253 < h.length then false
  else (splitOnChar '.' h.data).all lowerLabel

/-- Email capture of the token pass: /^[^@\s]+@([^@\s]+)$/ (no dot
required, both sides nonempty and whitespace- and at-sign-free). -/
def emailDomainCapture (t : List Char) : Option (List Char) :=
  match splitOnChar '@' t with
  | [l, r] =>
    if !l.isEmpty && !r.isEmpty && l.all (fun c => !isJsSpaceChar c)
        && r.all (fun c => !isJsSpaceChar c) then some r else none
  | _ => none

/-- tok.replace(/^[a-z]+:\/\//i, "") . -/
def stripAnyScheme (l : List Char) : List Char :=
  let a := l.takeWhile Char.isAlpha
  if !a.isEmpty && listStartsWith ("://".data) (l.drop a.length) then
    l.drop (a.length + 3)
  else l

/-- The per-token normalisation of extractDomainsFromText, App.jsx lines
721-740: trim, email capture, scheme and www. stripping, cut at / : ? #,
trim non-domain characters at both ends, lower-case, drop one trailing dot.
The caller adds the result to the found set iff isValidHostname accepts it. -/
def tokenCandidate (tokOrig : String) : String :=
  let t0 := (jsTrim tokOrig).data
  let t1 := match emailDomainCapture t0 with
            | some d => d
            | none => t0
  let t2 := stripAnyScheme t1
  let t3 := if listStartsWith ("www.".data) (lowerChars t2) then t2.drop 4 else t2
  let t4 := t3.takeWhile (fun c => c ≠ '/' && c ≠ ':' && c ≠ '?' && c ≠ '#')
  let t5 := t4.dropWhile (fun c => !isAlnumChar c)
  let t6 := (t5.reverse.dropWhile (fun c => !(isAlnumChar c || c = '.' || c = '-'))).reverse
  let t7 := lowerChars t6
  let t8 := if t7.getLast? = some '.' then t7.dropLast else t7
  String.mk t8

end V3

/- ===== History enrichment ===== -/

/-- A parsed JSON body returned by the /api/cdx relay: either an array of
rows (row 0 a header, later rows starting with a timestamp string, the shape
documented for the timestamp-index endpoint) or some non-array JSON value.
As an argument, none models a fetchProxy call that returned null (network
error, non-ok HTTP status, or unparsable body). -/
inductive CdxJson where
  | arr (rows : List (List String))
  | other
  deriving DecidableEq

/-- The first/last-year extraction of enrichByCDX (part_001 lines 66-74):
Array.isArray(r) && r.length > 1 && r[1][0] (a nonempty cell), then
r[1][0].slice(0, 4); otherwise the sentinel. -/
def cdxYear : Option CdxJson → String
  | some (.arr rows) =>
    match rows.drop 1 with
    | (cell :: _) :: _ => if cell = "" then "—" else String.mk (cell.data.take 4)
    | _ => "—"
  | _ => "—"

/-- totalSnapshots of enrichByCDX (part_001 line 82):
Math.max(0, rows.length - 1) for an array response, 0 otherwise. -/
def cdxSnapCount : Option CdxJson → Nat
  | some (.arr rows) => rows.length - 1
  | _ => 0

structure EnrichOut where
  firstYear : String
  lastYear : String
  years : String
  totalSnapshots : Nat
  deriving DecidableEq

/-- The all-unknown enrichment record the scanners fall back to. -/
def sentinelEnrich : EnrichOut :=
  { firstYear := "—", lastYear := "—", years := "—", totalSnapshots := 0 }

namespace PartOne

/-- The years computation of enrichByCDX (part_001 lines 76-79):
"span years" when both years are known, sentinel otherwise. -/
def spanYears (firstYear lastYear : String) : String :=
  if firstYear ≠ "—" ∧ lastYear ≠ "—" then
    match jsNumber lastYear, jsNumber firstYear with
    | some a, some b => toString (a - b) ++ " years"
    | _, _ => "NaN years"
  else "—"

/-- enrichByCDX of src/unnamed/part_001 lines 53-86, as a function of the
three fetchProxy outcomes (first, last, year).  fetchProxy catches every
network and parse failure and returns null (none); the body then degrades
each derived field independently and always returns — it has no throw path. -/
def enrichByCDX (firstRes lastRes yearRes : Option CdxJson) : EnrichOut :=
  let firstYear := cdxYear firstRes
  let lastYear := cdxYear lastRes
  let years := spanYears firstYear lastYear
  { firstYear := firstYear, lastYear := lastYear, years := years
  , totalSnapshots := cdxSnapCount yearRes }

end PartOne

namespace V4

/-- The years computation of the enrichByCDX variant at App.jsx lines
1103-1106: the span is rendered with the suffix " năm", not " years". -/
def spanYears (firstYear lastYear : String) : String :=
  if firstYear ≠ "—" ∧ lastYear ≠ "—" then
    match jsNumber lastYear, jsNumber firstYear with
    | some a, some b => toString (a - b) ++ " năm"
    | _, _ => "NaN năm"
  else "—"

end V4

/- ===== Per-domain lookup with retry ===== -/

/-- Outcome of one checkAvailable call: either its returned record (archived
flag, optional closest snapshot url and timestamp, and the raw elapsed
milliseconds, which checkAvailable clamps with Math.max(1, ...)), or a
thrown error carrying a message. -/
inductive Avail where
  | ok (archived : Bool) (closestUrl closestTs : Option String) (rawMs : Nat)
  | err (msg : String)
  deriving DecidableEq

/-- The per-domain result record assembled by checkDomainTwice /
scanDomainsParallel: the checkAvailable fields spread together with the
enrichment fields and a status. -/
structure DomainResult where
  status : String
  archived : Option Bool
  closestUrl : Option String
  closestTs : Option String
  timeMs : Nat
  errorMsg : Option String
  years : String
  firstYear : String
  lastYear : String
  totalSnapshots : Nat
  deriving DecidableEq

/-- Result on a successful checkAvailable call (part_001 lines 92-102 and
App.jsx lines 1158-1171): enrichment runs only when a snapshot was found,
otherwise the sentinel fields are used; either way the status is complete. -/
def availOutcome (archived : Bool) (cu ct : Option String) (rawMs : Nat)
    (e : EnrichOut) : DomainResult :=
  if archived then
    { status := "complete", archived := some true, closestUrl := cu
    , closestTs := ct, timeMs := max 1 rawMs, errorMsg := none
    , years := e.years, firstYear := e.firstYear, lastYear := e.lastYear
    , totalSnapshots := e.totalSnapshots }
  else
    { status := "complete", archived := some false, closestUrl := cu
    , closestTs := ct, timeMs := max 1 rawMs, errorMsg := none
    , years := "—", firstYear := "—", lastYear := "—", totalSnapshots := 0 }

/-- The error record of part_001 lines 104-116. -/
def errorResult (msg : String) : DomainResult :=
  { status := "error", archived := none, closestUrl := none, closestTs := none
  , timeMs := 0, errorMsg := some msg
  , years := "—", firstYear := "—", lastYear := "—", totalSnapshots := 0 }

namespace PartOne

/-- checkDomainTwice of src/unnamed/part_001 lines 88-130, as a function of
the outcomes of the two checkAvailable attempts and of the enrichment
result (enrichByCDX is wrapped in try/catch but, being total, always
returns).  A success on either attempt yields a complete record; two
failures yield an error record carrying the second failure's message
(e?.message || "Unknown error"). -/
def checkDomainTwice (o1 o2 : Avail) (e : EnrichOut) : DomainResult :=
  match o1 with
  | .ok a cu ct t => availOutcome a cu ct t e
  | .err _ =>
    match o2 with
    | .ok a cu ct t => availOutcome a cu ct t e
    | .err m2 => errorResult (if m2 = "" then "Unknown error" else m2)

end PartOne

namespace V4

/-- The per-domain retry loop of scanDomainsParallel (App.jsx lines
1155-1188): at most two checkAvailable attempts, the same result shapes as
checkDomainTwice, default error message "Lỗi không xác định". -/
def domainRetryResult (o1 o2 : Avail) (e : EnrichOut) : DomainResult :=
  match o1 with
  | .ok a cu ct t => availOutcome a cu ct t e
  | .err _ =>
    match o2 with
    | .ok a cu ct t => availOutcome a cu ct t e
    | .err m2 => errorResult (if m2 = "" then "Lỗi không xác định" else m2)

end V4

/- ===== The part_001 batch scanner ===== -/

/-- One row of the rows state array. -/
structure ScanRow where
  domain : String
  status : String
  years : String
  firstYear : String
  lastYear : String
  totalSnapshots : Nat
  timeMs : Nat
  closestUrl : Option String
  closestTs : Option String
  errorMsg : Option String
  deriving DecidableEq

/-- chunk(arr, size) of part_001 lines 24-28, size = k + 1 (the source only
ever calls it with size 10; a zero size does not terminate in JS).  The
fuel argument is the length of the list. -/
def chunkAux (k : Nat) : Nat → List α → List (List α)
  | _, [] => []
  | 0, _ :: _ => []
  | fuel + 1, x :: xs => (x :: xs.take k) :: chunkAux k fuel (xs.drop k)

def chunk (size : Nat) (l : List α) : List (List α) :=
  chunkAux (size - 1) l.length l

namespace PartOne

/-- The fresh row created for domain d by startScan (part_001 lines 150-152):
every record starts with status "checking" (fields absent in the JS object
are modelled as 0 / none). -/
def freshRow (d : String) : ScanRow :=
  { domain := d, status := "checking", years := "—", firstYear := "—"
  , lastYear := "—", totalSnapshots := 0, timeMs := 0
  , closestUrl := none, closestTs := none, errorMsg := none }

/-- The initial rows array set by startScan (part_001 lines 150-152). -/
def initRows (domains : List String) : List ScanRow :=
  domains.map freshRow

/-- The environment of one slot of the scan: the two checkAvailable attempt
outcomes, the enrichment outcome, and the wall-clock duration of the whole
checkDomainTwice call (performance.now() deltas). -/
structure SlotEnv where
  o1 : Avail
  o2 : Avail
  enrich : EnrichOut
  wallMs : Nat

/-- The mutable state of one run: the rows array, the done / errors /
totalTime counters of startScan, plus (for specification purposes) the list
of global indices at which a lookup was actually started. -/
structure ScanState where
  rows : List ScanRow
  done : Nat
  errors : Nat
  totalTime : Nat
  processed : List Nat

/-- The body of the inner loop of startScan (part_001 lines 166-194) for one
non-skipped domain slot: run checkDomainTwice, overwrite the row with the
spread of the result (plus the wall-clock timeMs, zeroed on error), and
update the counters (totalTime accumulates result.timeMs, the checkAvailable
latency, for non-error results). -/
def applySlot (envs : Nat → SlotEnv) (st : ScanState) (gi : Nat) : ScanState :=
  let env := envs gi
  let r := checkDomainTwice env.o1 env.o2 env.enrich
  let wall : Nat := if r.status = "error" then 0 else max 1 env.wallMs
  let newRow : ScanRow → ScanRow := fun old =>
    { domain := old.domain, status := r.status, years := r.years
    , firstYear := r.firstYear, lastYear := r.lastYear
    , totalSnapshots := r.totalSnapshots, timeMs := wall
    , closestUrl := r.closestUrl, closestTs := r.closestTs
    , errorMsg := r.errorMsg }
  { rows := st.rows.set gi (newRow (st.rows.getD gi (freshRow "")))
  , done := st.done + 1
  , errors := st.errors + (if r.status = "error" then 1 else 0)
  , totalTime := st.totalTime + (if r.status = "error" then 0 else r.timeMs)
  , processed := st.processed ++ [gi] }

/-- The inner loop over one batch: the cancellation flag is read before each
domain; an aborted slot is skipped (continue).  The flag is modelled as a
function of the global slot index at which it is read. -/
def runSlots (abort : Nat → Bool) (envs : Nat → SlotEnv) :
    List Nat → ScanState → ScanState
  | [], st => st
  | gi :: rest, st =>
    if abort gi then runSlots abort envs rest st
    else runSlots abort envs rest (applySlot envs st gi)

/-- The batch loop of startScan: after each batch the flag is read once more
(if (controller.signal.aborted) break), modelled as reading the flag at the
first slot index of the next batch. -/
def runBatches (abort : Nat → Bool) (envs : Nat → SlotEnv) :
    List (List Nat) → ScanState → ScanState
  | [], st => st
  | batch :: rest, st =>
    let st2 := runSlots abort envs batch st
    match rest with
    | [] => st2
    | next :: _ => if abort (next.headD 0) then st2
                   else runBatches abort envs rest st2

def BATCH_SIZE : Nat := 10

/-- startScan of src/unnamed/part_001 lines 148-200: initialise all rows to
checking, zero the counters, then process the domain list in batches of
BATCH_SIZE, sequentially (inter-attempt and inter-batch delays do not
affect the state and are not modelled). -/
def runScan (domains : List String) (envs : Nat → SlotEnv)
    (abort : Nat → Bool) : ScanState :=
  runBatches abort envs (chunk BATCH_SIZE (List.range domains.length))
    { rows := initRows domains, done := 0, errors := 0, totalTime := 0
    , processed := [] }

/-- The avg statistic set on every iteration (part_001 line 193):
Math.round(totalTime / Math.max(1, done - errors)). -/
def ScanState.avg (st : ScanState) : Nat :=
  jsRoundDiv st.totalTime (max 1 (st.done - st.errors))

/-- The result computed at slot gi. -/
def slotResult (envs : Nat → SlotEnv) (gi : Nat) : DomainResult :=
  checkDomainTwice (envs gi).o1 (envs gi).o2 (envs gi).enrich

def slotIsError (envs : Nat → SlotEnv) (gi : Nat) : Bool :=
  (slotResult envs gi).status == "error"

/-- The contribution of slot gi to totalTime: the checkAvailable latency for
a non-error result, 0 for an error result. -/
def slotTime (envs : Nat → SlotEnv) (gi : Nat) : Nat :=
  if slotIsError envs gi then 0 else (slotResult envs gi).timeMs

end PartOne

/-- Specification-side predicate: the row's status lies in the status set the
part_001 scanner actually uses. -/
def RowStatusOK (r : ScanRow) : Prop :=
  r.status = "checking" ∨ r.status = "complete" ∨ r.status = "error"

/- ===== CSV export (part_001 lines 207-223; identical quoting in App.jsx
lines 233-249 and 1239-1255) ===== -/

namespace CSV

/-- String(x).replace(/"/g, '""') : double every quote character. -/
def escQ : List Char → List Char
  | [] => []
  | c :: cs => if c = '"' then '"' :: '"' :: escQ cs else c :: escQ cs

/-- One exported field: a quote, the escaped content, a quote. -/
def renderField (f : List Char) : List Char := '"' :: (escQ f ++ ['"'])

/-- fields.map(quote).join(",") . -/
def renderRow : List (List Char) → List Char
  | [] => []
  | f :: fs =>
    match fs with
    | [] => renderField f
    | _ :: _ => renderField f ++ ',' :: renderRow fs

/-- lines.join("\n") . -/
def joinLines : List (List Char) → List Char
  | [] => []
  | x :: xs =>
    match xs with
    | [] => x
    | _ :: _ => x ++ '\n' :: joinLines xs

def renderFile (rows : List (List (List Char))) : List Char :=
  joinLines (rows.map renderRow)

/-- Parser for one quoted field body (after the opening quote): a doubled
quote is an escaped quote character, a single quote closes the field, any
other character is content. -/
def parseQ : List Char → List Char → Option (List Char × List Char)
  | [], _ => none
  | [c], acc => if c = '"' then some (acc.reverse, []) else none
  | c :: d :: rest, acc =>
    if c = '"' then
      if d = '"' then parseQ rest ('"' :: acc)
      else some (acc.reverse, d :: rest)
    else parseQ (d :: rest) (c :: acc)

/-- Parser for one CSV row of fully-quoted fields; returns the fields and
the unconsumed remainder (empty or starting with a newline). -/
def parseRowF : Nat → List Char → Option (List (List Char) × List Char)
  | 0, _ => none
  | fuel + 1, l =>
    match l with
    | [] => none
    | c :: rest =>
      if c = '"' then
        match parseQ rest [] with
        | none => none
        | some (f, rest2) =>
          match rest2 with
          | [] => some ([f], [])
          | d :: more =>
            if d = ',' then
              match parseRowF fuel more with
              | some (fs, rem) => some (f :: fs, rem)
              | none => none
            else some ([f], d :: more)
      else none

/-- Parser for a sequence of newline-separated fully-quoted rows. -/
def parseFileF : Nat → List Char → Option (List (List (List Char)))
  | 0, _ => none
  | fuel + 1, l =>
    match l with
    | [] => some []
    | c :: cs =>
      match parseRowF ((c :: cs).length + 1) (c :: cs) with
      | none => none
      | some (fs, rest) =>
        match rest with
        | [] => some [fs]
        | d :: more =>
          if d = '\n' then (parseFileF fuel more).map (fun rows => fs :: rows)
          else none

def parseCSV (l : List Char) : Option (List (List (List Char))) :=
  parseFileF (l.length + 1) l

/-- Parser for the full export: the (unquoted) header line up to the first
newline, then the quoted record rows. -/
def parseExport (l : List Char) : Option (List Char × List (List (List Char))) :=
  match l.dropWhile (fun c => c ≠ '\n') with
  | [] => some (l.takeWhile (fun c => c ≠ '\n'), [])
  | _ :: body =>
    (parseCSV body).map (fun rows => (l.takeWhile (fun c => c ≠ '\n'), rows))

end CSV

namespace PartOne

def csvHeaderFields : List String :=
  ["domain", "status", "years", "first_year", "last_year", "total_snapshots",
   "time_ms", "closest_ts", "archive_url"]

/-- The 9 stringified fields of one exported record (part_001 lines 210-220):
r.years ?? "" etc. — in this model every row field is present, numbers are
stringified, nullable strings default to the empty string. -/
def rowFields (r : ScanRow) : List String :=
  [r.domain, r.status, r.years, r.firstYear, r.lastYear,
   toString r.totalSnapshots, toString r.timeMs,
   r.closestTs.getD "", r.closestUrl.getD ""]

/-- header.join(",") as characters (the header row is NOT quoted). -/
def headerLineChars : List Char :=
  (String.intercalate "," csvHeaderFields).data

/-- The record rows of the export, as character lists. -/
def csvRows (rs : List ScanRow) : List (List (List Char)) :=
  rs.map (fun r => (rowFields r).map (fun s => s.data))

/-- exportCSV of part_001 lines 207-223 (minus the Blob/anchor download
plumbing): the unquoted header line followed by one fully-quoted row per
record, joined by newlines. -/
def exportCSV (rs : List ScanRow) : List Char :=
  CSV.joinLines (headerLineChars :: (csvRows rs).map CSV.renderRow)

end PartOne

/- ===== The CDX relay (proxy.js and api/cdx.js) ===== -/

/-- Which of the three upstream timestamp-index query templates was chosen.
The templates differ only in their sort / collapse / limit parameters; the
queried url is passed through encodeURIComponent unchanged in meaning. -/
inductive CdxKind where
  | first
  | last
  | year
  deriving DecidableEq

inductive RelayResponse where
  | badRequest (msg : String)
  | upstream (kind : CdxKind) (url : String)
  deriving DecidableEq

namespace ProxyServer

/-- The /cdx handler of src/proxy.js: req.query.url and req.query.type are
absent (none) or strings.  const type = req.query.type || "first" defaults
both a missing and an empty type; if (!url) rejects a missing or empty url. -/
def cdxHandler (url : Option String) (typeParam : Option String) : RelayResponse :=
  match url with
  | none => .badRequest "Missing url param"
  | some u =>
    if u = "" then .badRequest "Missing url param"
    else
      let t := match typeParam with
               | none => "first"
               | some s => if s = "" then "first" else s
      if t = "first" then .upstream .first u
      else if t = "last" then .upstream .last u
      else if t = "year" then .upstream .year u
      else .badRequest "Invalid type param"

end ProxyServer

namespace ApiCdx

/-- The serverless handler of src/api/cdx.js: the destructuring default
const { url, type = "first" } = req.query applies only to an absent type
(an empty string stays empty and is then rejected as invalid). -/
def handler (url : Option String) (typeParam : Option String) : RelayResponse :=
  match url with
  | none => .badRequest "Missing url param"
  | some u =>
    if u = "" then .badRequest "Missing url param"
    else
      let t := match typeParam with
               | none => "first"
               | some s => s
      if t = "first" then .upstream .first u
      else if t = "last" then .upstream .last u
      else if t = "year" then .upstream .year u
      else .badRequest "Invalid type param"

end ApiCdx

/- ===================== Theorems ===================== -/

/- ===== Small evaluation lemmas ===== -/

theorem jsNumber_dash : jsNumber "—" = none := rfl

theorem jsNumber_empty : jsNumber "" = none := rfl

theorem ne_dash_of_jsNumber {s : String} {n : Int} (h : jsNumber s = some n) :
    s ≠ "—" := by
  intro he
  rw [he, jsNumber_dash] at h
  exact Option.noConfusion h

theorem ne_empty_of_jsNumber {s : String} {n : Int} (h : jsNumber s = some n) :
    s ≠ "" := by
  intro he
  rw [he, jsNumber_empty] at h
  exact Option.noConfusion h

/- ===== Claim C1 ===== -/

/-- C1 (code bug, evaluation at the failing input).  On the input
"a.com, a.com, A.COM" the extractor of App.jsx lines 9-42 deduplicates
BEFORE lower-casing and therefore returns the duplicate-carrying list
["a.com", "a.com"], while the part_001 extractor (which lower-cases before
deduplicating, as the claim, the spec and the README describe) returns
exactly ["a.com"]. -/
theorem spec_c1_dedup_eval :
    V1.extractDomainsFromText "a.com, a.com, A.COM" = ["a.com", "a.com"] ∧
    PartOne.extractDomainsFromText "a.com, a.com, A.COM" = ["a.com"] :=
  ⟨rfl, rfl⟩

/- ===== Claim C2 ===== -/

/-- C2 (code bug, evaluation at the inputs of the claim).  The extractor of
App.jsx lines 9-42 behaves exactly as the claim states on all three
examples; but the parseDomains variant (lines 419-428) returns the email
token and the TLD-less token verbatim, and the 707-754 variant keeps
"not-a-domain" because its normalisation pass leaves the token unchanged and
isValidHostname accepts a single-label hostname. -/
theorem spec_c2_extraction_eval :
    V1.extractDomainsFromText "https://www.Foo.com/path?q=1" = ["foo.com"] ∧
    V1.extractDomainsFromText "user@bar.co" = ["bar.co"] ∧
    V1.extractDomainsFromText "not-a-domain" = [] ∧
    V2.parseDomains "user@bar.co" = ["user@bar.co"] ∧
    V2.parseDomains "not-a-domain" = ["not-a-domain"] ∧
    V3.tokenCandidate "not-a-domain" = "not-a-domain" ∧
    V3.isValidHostname "not-a-domain" = true :=
  ⟨rfl, rfl, rfl, rfl, rfl, rfl, rfl⟩

/- ===== Claim C3 ===== -/

/-- C3 (counterexample).  When all three timestamp-index calls fail, the
part_001 enrichByCDX does not fail at all: it returns an ordinary record
with every derived field at its unknown sentinel.  No EnrichmentError (nor
any other throw path) exists in the function, refuting the claim that it
"fails with an EnrichmentError exactly when all three calls fail". -/
theorem spec_c3_counterexample :
    PartOne.enrichByCDX none none none =
      { firstYear := "—", lastYear := "—", years := "—", totalSnapshots := 0 } :=
  rfl

/-- C3 (amended).  The history enrichment operation never throws: each of the
three index calls independently determines only its own derived field
(first-seen the firstYear, last-seen the lastYear, year-histogram the
totalSnapshots count), a failed or malformed call degrades that field to the
unknown sentinel, and when all three calls fail the operation still returns,
with every field at its sentinel, rather than failing with an error. -/
theorem spec_c3_amended (f l y : Option CdxJson) :
    (PartOne.enrichByCDX f l y).firstYear = (PartOne.enrichByCDX f none none).firstYear ∧
    (PartOne.enrichByCDX f l y).lastYear = (PartOne.enrichByCDX none l none).lastYear ∧
    (PartOne.enrichByCDX f l y).totalSnapshots
        = (PartOne.enrichByCDX none none y).totalSnapshots ∧
    (PartOne.enrichByCDX none l y).firstYear = "—" ∧
    (PartOne.enrichByCDX f none y).lastYear = "—" ∧
    (PartOne.enrichByCDX f l none).totalSnapshots = 0 ∧
    PartOne.enrichByCDX none none none =
      { firstYear := "—", lastYear := "—", years := "—", totalSnapshots := 0 } :=
  ⟨rfl, rfl, rfl, rfl, rfl, rfl, rfl⟩

/- ===== Claim C4 (counterexample) ===== -/

/-- C4 (counterexample).  A ScanRecord of the part_001 scanner starts at
status "checking", not "queued"; and the v2 lookup checkWayback stamps a
successful record with status "archived", which is not in the claimed
status set at all. -/
theorem spec_c4_counterexample :
    (PartOne.initRows ["a.com"]).map (fun r => r.status) = ["checking"] ∧
    "checking" ≠ "queued" ∧
    (V2.checkWayback (some ("https://web.archive.org/web/1/a.com", "20010101000000"))
        none "a.com").status = "archived" ∧
    "archived" ∉ (["queued", "checking", "complete", "error"] : List String) :=
  ⟨rfl, by decide, rfl, by decide⟩

/- ===== Claim C5 ===== -/

/-- C5 (confirmed).  A lookup that fails on attempt 1 and succeeds on attempt
2 ends complete, not error: for checkDomainTwice (part_001), for the retry
loop of scanDomainsParallel (App.jsx 1155-1188), and for the resulting
ScanRecord of a part_001 run. -/
theorem spec_c5_retry_completes (m : String) (a : Bool) (cu ct : Option String)
    (t : Nat) (e : EnrichOut) (d : String) (w : Nat) :
    (PartOne.checkDomainTwice (.err m) (.ok a cu ct t) e).status = "complete" ∧
    (V4.domainRetryResult (.err m) (.ok a cu ct t) e).status = "complete" ∧
    ((PartOne.runScan [d]
        (fun _ => ⟨.err m, .ok a cu ct t, e, w⟩)
        (fun _ => false)).rows.map (fun r => r.status)) = ["complete"] := by
  cases a <;> exact ⟨rfl, rfl, rfl⟩

/- ===== Claim C8 ===== -/

/-- C8 (counterexample).  The enrichment variant at App.jsx lines 1067-1121
formats the span of years "2000".."2010" as "10 năm", not as the claimed
"10 years". -/
theorem spec_c8_counterexample :
    V4.spanYears "2000" "2010" = "10 năm" ∧ "10 năm" ≠ "10 years" :=
  ⟨rfl, by decide⟩

/-- C8 (amended).  The yearsSpan field equals lastYear minus firstYear
formatted as "N years" in the part_001 client and in fetchFirstLastYears
(whose sentinel is null), but as "N năm" in the App.jsx 1067 enrichment
variant; in every variant it is the unknown sentinel whenever either year
is unknown, and the part_001 years field is exactly spanYears of the two
extracted years. -/
theorem spec_c8_amended (f l x : String) (nf nl : Int)
    (fr lr yr : Option CdxJson)
    (hf : jsNumber f = some nf) (hl : jsNumber l = some nl) :
    PartOne.spanYears f l = toString (nl - nf) ++ " years" ∧
    V4.spanYears f l = toString (nl - nf) ++ " năm" ∧
    V1.yearsSpanOf (some f) (some l) = some (toString (nl - nf) ++ " years") ∧
    PartOne.spanYears "—" x = "—" ∧
    PartOne.spanYears x "—" = "—" ∧
    V4.spanYears "—" x = "—" ∧
    V4.spanYears x "—" = "—" ∧
    V1.yearsSpanOf none (some x) = none ∧
    V1.yearsSpanOf (some x) none = none ∧
    (PartOne.enrichByCDX fr lr yr).years
        = PartOne.spanYears (cdxYear fr) (cdxYear lr) := by
  have hfd : f ≠ "—" := ne_dash_of_jsNumber hf
  have hld : l ≠ "—" := ne_dash_of_jsNumber hl
  have hfe : f ≠ "" := ne_empty_of_jsNumber hf
  have hle : l ≠ "" := ne_empty_of_jsNumber hl
  refine ⟨?_, ?_, ?_, ?_, ?_, ?_, ?_, rfl, rfl, rfl⟩
  · simp [PartOne.spanYears, hfd, hld, hf, hl]
  · simp [V4.spanYears, hfd, hld, hf, hl]
  · simp [V1.yearsSpanOf, hfe, hle, hf, hl]
  · simp [PartOne.spanYears]
  · simp [PartOne.spanYears]
  · simp [V4.spanYears]
  · simp [V4.spanYears]

/-- C8 (witness).  The amended theorem at the concrete years 2000 and 2010. -/
theorem spec_c8_amended_witness :
    PartOne.spanYears "2000" "2010" = toString ((2010 : Int) - 2000) ++ " years" ∧
    V4.spanYears "2000" "2010" = toString ((2010 : Int) - 2000) ++ " năm" ∧
    V1.yearsSpanOf (some "2000") (some "2010")
        = some (toString ((2010 : Int) - 2000) ++ " years") ∧
    PartOne.spanYears "—" "2010" = "—" ∧
    PartOne.spanYears "2010" "—" = "—" ∧
    V4.spanYears "—" "2010" = "—" ∧
    V4.spanYears "2010" "—" = "—" ∧
    V1.yearsSpanOf none (some "2010") = none ∧
    V1.yearsSpanOf (some "2010") none = none ∧
    (PartOne.enrichByCDX none none none).years
        = PartOne.spanYears (cdxYear none) (cdxYear none) :=
  spec_c8_amended "2000" "2010" "2010" 2000 2010 none none none rfl rfl

/- ===== Scanner lemmas ===== -/

theorem runSlots_cons (abort : Nat → Bool) (envs : Nat → PartOne.SlotEnv)
    (gi : Nat) (rest : List Nat) (st : PartOne.ScanState) :
    PartOne.runSlots abort envs (gi :: rest) st
      = if abort gi then PartOne.runSlots abort envs rest st
        else PartOne.runSlots abort envs rest (PartOne.applySlot envs st gi) :=
  rfl

theorem runBatches_single (abort : Nat → Bool) (envs : Nat → PartOne.SlotEnv)
    (b : List Nat) (st : PartOne.ScanState) :
    PartOne.runBatches abort envs [b] st = PartOne.runSlots abort envs b st :=
  rfl

theorem runBatches_cons2 (abort : Nat → Bool) (envs : Nat → PartOne.SlotEnv)
    (b nb : List Nat) (rest2 : List (List Nat)) (st : PartOne.ScanState) :
    PartOne.runBatches abort envs (b :: nb :: rest2) st
      = if abort (nb.headD 0) then PartOne.runSlots abort envs b st
        else PartOne.runBatches abort envs (nb :: rest2)
            (PartOne.runSlots abort envs b st) :=
  rfl

theorem applySlot_done (envs : Nat → PartOne.SlotEnv) (st : PartOne.ScanState)
    (gi : Nat) : (PartOne.applySlot envs st gi).done = st.done + 1 :=
  rfl

theorem applySlot_errors (envs : Nat → PartOne.SlotEnv) (st : PartOne.ScanState)
    (gi : Nat) :
    (PartOne.applySlot envs st gi).errors
      = st.errors
        + (if (PartOne.slotResult envs gi).status = "error" then 1 else 0) :=
  rfl

theorem applySlot_totalTime (envs : Nat → PartOne.SlotEnv)
    (st : PartOne.ScanState) (gi : Nat) :
    (PartOne.applySlot envs st gi).totalTime
      = st.totalTime
        + (if (PartOne.slotResult envs gi).status = "error" then 0
           else (PartOne.slotResult envs gi).timeMs) :=
  rfl

theorem applySlot_processed (envs : Nat → PartOne.SlotEnv)
    (st : PartOne.ScanState) (gi : Nat) :
    (PartOne.applySlot envs st gi).processed = st.processed ++ [gi] :=
  rfl

theorem checkDomainTwice_status (o1 o2 : Avail) (e : EnrichOut) :
    (PartOne.checkDomainTwice o1 o2 e).status = "complete" ∨
    (PartOne.checkDomainTwice o1 o2 e).status = "error" := by
  cases o1 with
  | ok a cu ct t => cases a <;> simp [PartOne.checkDomainTwice, availOutcome]
  | err m =>
    cases o2 with
    | ok a cu ct t => cases a <;> simp [PartOne.checkDomainTwice, availOutcome]
    | err m2 => simp [PartOne.checkDomainTwice, errorResult]

theorem mem_set_elim {α : Type} {l : List α} {n : Nat} {a x : α}
    (h : x ∈ l.set n a) : x ∈ l ∨ x = a := by
  induction l generalizing n with
  | nil => simp at h
  | cons y ys ih =>
    cases n with
    | zero =>
      rcases List.mem_cons.mp h with h1 | h1
      · right; exact h1
      · left; exact List.mem_cons_of_mem _ h1
    | succ n =>
      rcases List.mem_cons.mp h with h1 | h1
      · left; simp [h1]
      · rcases ih h1 with h2 | h2
        · left; exact List.mem_cons_of_mem _ h2
        · right; exact h2

theorem applySlot_rows_status (envs : Nat → PartOne.SlotEnv)
    (st : PartOne.ScanState) (gi : Nat)
    (h : ∀ r ∈ st.rows, RowStatusOK r) :
    ∀ r ∈ (PartOne.applySlot envs st gi).rows, RowStatusOK r := by
  intro r hr
  simp only [PartOne.applySlot] at hr
  rcases mem_set_elim hr with h1 | h1
  · exact h r h1
  · subst h1
    rcases checkDomainTwice_status (envs gi).o1 (envs gi).o2 (envs gi).enrich with h2 | h2
    · right; left; exact h2
    · right; right; exact h2

theorem runSlots_rows_status (abort : Nat → Bool) (envs : Nat → PartOne.SlotEnv) :
    ∀ (idxs : List Nat) (st : PartOne.ScanState),
      (∀ r ∈ st.rows, RowStatusOK r) →
      ∀ r ∈ (PartOne.runSlots abort envs idxs st).rows, RowStatusOK r := by
  intro idxs
  induction idxs with
  | nil => intro st h; simpa [PartOne.runSlots] using h
  | cons gi rest ih =>
    intro st h
    by_cases ha : abort gi
    · simpa [PartOne.runSlots, ha] using ih st h
    · simpa [PartOne.runSlots, ha] using
        ih (PartOne.applySlot envs st gi) (applySlot_rows_status envs st gi h)

theorem runBatches_rows_status (abort : Nat → Bool) (envs : Nat → PartOne.SlotEnv) :
    ∀ (batches : List (List Nat)) (st : PartOne.ScanState),
      (∀ r ∈ st.rows, RowStatusOK r) →
      ∀ r ∈ (PartOne.runBatches abort envs batches st).rows, RowStatusOK r := by
  intro batches
  induction batches with
  | nil => intro st h; simpa [PartOne.runBatches] using h
  | cons b rest ih =>
    intro st h
    have h2 := runSlots_rows_status abort envs b st h
    cases rest with
    | nil => rw [runBatches_single]; exact h2
    | cons nb rest2 =>
      rw [runBatches_cons2]
      by_cases ha : abort (nb.headD 0) = true
      · rw [if_pos ha]; exact h2
      · rw [if_neg ha]; exact ih (PartOne.runSlots abort envs b st) h2

theorem initRows_status (domains : List String) :
    ∀ r ∈ PartOne.initRows domains, r.status = "checking" := by
  intro r hr
  rcases List.mem_map.mp hr with ⟨d, _, rfl⟩
  rfl

theorem runSlots_done_le (abort : Nat → Bool) (envs : Nat → PartOne.SlotEnv) :
    ∀ (idxs : List Nat) (st : PartOne.ScanState),
      (PartOne.runSlots abort envs idxs st).done ≤ st.done + idxs.length := by
  intro idxs
  induction idxs with
  | nil => intro st; simp [PartOne.runSlots]
  | cons gi rest ih =>
    intro st
    rw [runSlots_cons]
    by_cases ha : abort gi = true
    · rw [if_pos ha]
      have := ih st
      simp only [List.length_cons]
      omega
    · rw [if_neg ha]
      have h1 := ih (PartOne.applySlot envs st gi)
      rw [applySlot_done] at h1
      simp only [List.length_cons]
      omega

theorem runSlots_errors_le (abort : Nat → Bool) (envs : Nat → PartOne.SlotEnv) :
    ∀ (idxs : List Nat) (st : PartOne.ScanState),
      st.errors ≤ st.done →
      (PartOne.runSlots abort envs idxs st).errors
        ≤ (PartOne.runSlots abort envs idxs st).done := by
  intro idxs
  induction idxs with
  | nil => intro st h; simpa [PartOne.runSlots] using h
  | cons gi rest ih =>
    intro st h
    rw [runSlots_cons]
    by_cases ha : abort gi = true
    · rw [if_pos ha]; exact ih st h
    · rw [if_neg ha]
      refine ih (PartOne.applySlot envs st gi) ?_
      rw [applySlot_errors, applySlot_done]
      split <;> omega

theorem runSlots_processed (abort : Nat → Bool) (envs : Nat → PartOne.SlotEnv) :
    ∀ (idxs : List Nat) (st : PartOne.ScanState),
      (∀ gi ∈ st.processed, abort gi = false) →
      ∀ gi ∈ (PartOne.runSlots abort envs idxs st).processed, abort gi = false := by
  intro idxs
  induction idxs with
  | nil => intro st h; simpa [PartOne.runSlots] using h
  | cons gi rest ih =>
    intro st h
    rw [runSlots_cons]
    by_cases ha : abort gi = true
    · rw [if_pos ha]; exact ih st h
    · rw [if_neg ha]
      refine ih (PartOne.applySlot envs st gi) ?_
      intro j hj
      rw [applySlot_processed] at hj
      rcases List.mem_append.mp hj with hj | hj
      · exact h j hj
      · rcases List.mem_singleton.mp hj with rfl
        exact Bool.eq_false_iff.mpr ha

theorem runBatches_done_le (abort : Nat → Bool) (envs : Nat → PartOne.SlotEnv) :
    ∀ (batches : List (List Nat)) (st : PartOne.ScanState),
      (PartOne.runBatches abort envs batches st).done
        ≤ st.done + (batches.map List.length).sum := by
  intro batches
  induction batches with
  | nil => intro st; simp [PartOne.runBatches]
  | cons b rest ih =>
    intro st
    have hslots := runSlots_done_le abort envs b st
    cases rest with
    | nil =>
      rw [runBatches_single]
      simp only [List.map_cons, List.map_nil, List.sum_cons, List.sum_nil]
      omega
    | cons nb rest2 =>
      rw [runBatches_cons2]
      by_cases ha : abort (nb.headD 0) = true
      · rw [if_pos ha]
        simp only [List.map_cons, List.sum_cons]
        omega
      · rw [if_neg ha]
        have hrec := ih (PartOne.runSlots abort envs b st)
        simp only [List.map_cons, List.sum_cons] at hrec ⊢
        omega

theorem runBatches_errors_le (abort : Nat → Bool) (envs : Nat → PartOne.SlotEnv) :
    ∀ (batches : List (List Nat)) (st : PartOne.ScanState),
      st.errors ≤ st.done →
      (PartOne.runBatches abort envs batches st).errors
        ≤ (PartOne.runBatches abort envs batches st).done := by
  intro batches
  induction batches with
  | nil => intro st h; simpa [PartOne.runBatches] using h
  | cons b rest ih =>
    intro st h
    have h2 := runSlots_errors_le abort envs b st h
    cases rest with
    | nil => rw [runBatches_single]; exact h2
    | cons nb rest2 =>
      rw [runBatches_cons2]
      by_cases ha : abort (nb.headD 0) = true
      · rw [if_pos ha]; exact h2
      · rw [if_neg ha]; exact ih (PartOne.runSlots abort envs b st) h2

theorem runBatches_processed (abort : Nat → Bool) (envs : Nat → PartOne.SlotEnv) :
    ∀ (batches : List (List Nat)) (st : PartOne.ScanState),
      (∀ gi ∈ st.processed, abort gi = false) →
      ∀ gi ∈ (PartOne.runBatches abort envs batches st).processed,
        abort gi = false := by
  intro batches
  induction batches with
  | nil => intro st h; simpa [PartOne.runBatches] using h
  | cons b rest ih =>
    intro st h
    have h2 := runSlots_processed abort envs b st h
    cases rest with
    | nil => rw [runBatches_single]; exact h2
    | cons nb rest2 =>
      rw [runBatches_cons2]
      by_cases ha : abort (nb.headD 0) = true
      · rw [if_pos ha]; exact h2
      · rw [if_neg ha]; exact ih (PartOne.runSlots abort envs b st) h2

theorem chunkAux_join {α : Type} (k : Nat) :
    ∀ (fuel : Nat) (l : List α), l.length ≤ fuel →
      (chunkAux k fuel l).flatten = l := by
  intro fuel
  induction fuel with
  | zero =>
    intro l hl
    cases l with
    | nil => simp [chunkAux]
    | cons x xs => simp at hl
  | succ f ih =>
    intro l hl
    cases l with
    | nil => simp [chunkAux]
    | cons x xs =>
      simp only [List.length_cons] at hl
      simp only [chunkAux, List.flatten_cons]
      rw [ih (xs.drop k) (by simp only [List.length_drop]; omega)]
      simp [List.take_append_drop]

theorem chunk_join {α : Type} (size : Nat) (l : List α) :
    (chunk size l).flatten = l :=
  chunkAux_join (size - 1) l.length l (Nat.le_refl _)

theorem chunk_lengths_sum {α : Type} (size : Nat) (l : List α) :
    ((chunk size l).map List.length).sum = l.length := by
  rw [← List.length_flatten, chunk_join]

/- ===== Claim C4 (amended) ===== -/

/-- C4 (amended).  In the part_001 scanner every ScanRecord status is one of
checking, complete, error: each record starts at checking (not queued), the
per-domain result status is always complete or error, so transitions follow
checking to complete or error (a record skipped after cancellation stays at
checking); the v2 lookup checkWayback instead stamps successful lookups
archived or not_found. -/
theorem spec_c4_amended (domains : List String) (envs : Nat → PartOne.SlotEnv)
    (abort : Nat → Bool) (o1 o2 : Avail) (e : EnrichOut)
    (closest : Option (String × String)) (du : Option String) (ru : String) :
    (∀ r ∈ PartOne.initRows domains, r.status = "checking") ∧
    (∀ r ∈ (PartOne.runScan domains envs abort).rows, RowStatusOK r) ∧
    ((PartOne.checkDomainTwice o1 o2 e).status = "complete" ∨
      (PartOne.checkDomainTwice o1 o2 e).status = "error") ∧
    ((V2.checkWayback closest du ru).status = "archived" ∨
      (V2.checkWayback closest du ru).status = "not_found") := by
  refine ⟨initRows_status domains, ?_, checkDomainTwice_status o1 o2 e, ?_⟩
  · exact runBatches_rows_status abort envs _ _
      (fun r hr => Or.inl (initRows_status domains r hr))
  · cases closest <;> simp [V2.checkWayback]

/- ===== Claim C6 ===== -/

/-- C6 (confirmed).  For every run of the part_001 scanner: the final
aggregates satisfy completedCount + errorCount ≤ totalCount (where
completedCount = done - errors as displayed by the app), a lookup is only
ever started at a slot where the cancellation flag read false, and — for a
monotone flag (an AbortController can only be cancelled, never reset) — once
cancellation is requested at time t, no lookup at slot t or later is
started. -/
theorem spec_c6_cancellation (domains : List String)
    (envs : Nat → PartOne.SlotEnv) (abort : Nat → Bool)
    (hmono : ∀ i j : Nat, i ≤ j → abort i = true → abort j = true) :
    ((PartOne.runScan domains envs abort).done
        - (PartOne.runScan domains envs abort).errors)
      + (PartOne.runScan domains envs abort).errors ≤ domains.length ∧
    (∀ gi ∈ (PartOne.runScan domains envs abort).processed, abort gi = false) ∧
    (∀ t : Nat, abort t = true →
      ∀ gi ∈ (PartOne.runScan domains envs abort).processed, gi < t) := by
  have hdone : (PartOne.runScan domains envs abort).done ≤ domains.length := by
    have h := runBatches_done_le abort envs
      (chunk PartOne.BATCH_SIZE (List.range domains.length))
      { rows := PartOne.initRows domains, done := 0, errors := 0, totalTime := 0
      , processed := [] }
    rw [chunk_lengths_sum] at h
    simpa [PartOne.runScan] using h
  have herr : (PartOne.runScan domains envs abort).errors
      ≤ (PartOne.runScan domains envs abort).done := by
    exact runBatches_errors_le abort envs _ _ (Nat.le_refl 0)
  have hproc : ∀ gi ∈ (PartOne.runScan domains envs abort).processed,
      abort gi = false := by
    exact runBatches_processed abort envs _ _ (by intro gi h; simp at h)
  refine ⟨by omega, hproc, ?_⟩
  intro t ht gi hgi
  by_contra hlt
  have hle : t ≤ gi := by omega
  have := hmono t gi hle ht
  rw [hproc gi hgi] at this
  exact Bool.noConfusion this

/-- C6 (witness).  The cancellation theorem at a concrete three-domain run
whose flag turns on from slot 2 onward. -/
theorem spec_c6_cancellation_witness :
    ((PartOne.runScan ["a.com", "b.com", "c.com"]
        (fun _ => ⟨Avail.ok true none none 5, Avail.ok true none none 5,
                   sentinelEnrich, 5⟩)
        (fun i => decide (2 ≤ i))).done
      - (PartOne.runScan ["a.com", "b.com", "c.com"]
        (fun _ => ⟨Avail.ok true none none 5, Avail.ok true none none 5,
                   sentinelEnrich, 5⟩)
        (fun i => decide (2 ≤ i))).errors)
      + (PartOne.runScan ["a.com", "b.com", "c.com"]
        (fun _ => ⟨Avail.ok true none none 5, Avail.ok true none none 5,
                   sentinelEnrich, 5⟩)
        (fun i => decide (2 ≤ i))).errors ≤ 3 :=
  (spec_c6_cancellation ["a.com", "b.com", "c.com"]
    (fun _ => ⟨Avail.ok true none none 5, Avail.ok true none none 5,
               sentinelEnrich, 5⟩)
    (fun i => decide (2 ≤ i))
    (by
      intro i j hij h
      simp only [decide_eq_true_eq] at h ⊢
      omega)).1

/- ===== Claim C7 ===== -/

theorem slotIsError_true_iff (envs : Nat → PartOne.SlotEnv) (gi : Nat) :
    PartOne.slotIsError envs gi = true
      ↔ (PartOne.slotResult envs gi).status = "error" := by
  simp [PartOne.slotIsError]

theorem runSlots_closed (envs : Nat → PartOne.SlotEnv) :
    ∀ (idxs : List Nat) (st : PartOne.ScanState),
      (PartOne.runSlots (fun _ => false) envs idxs st).done
          = st.done + idxs.length ∧
      (PartOne.runSlots (fun _ => false) envs idxs st).errors
          = st.errors + idxs.countP (PartOne.slotIsError envs) ∧
      (PartOne.runSlots (fun _ => false) envs idxs st).totalTime
          = st.totalTime + (idxs.map (PartOne.slotTime envs)).sum := by
  intro idxs
  induction idxs with
  | nil => intro st; simp [PartOne.runSlots]
  | cons gi rest ih =>
    intro st
    obtain ⟨h1, h2, h3⟩ := ih (PartOne.applySlot envs st gi)
    rw [runSlots_cons, if_neg (by simp)]
    refine ⟨?_, ?_, ?_⟩
    · rw [h1, applySlot_done, List.length_cons]
      omega
    · rw [h2, applySlot_errors, List.countP_cons]
      by_cases he : (PartOne.slotResult envs gi).status = "error"
      · rw [if_pos he, if_pos ((slotIsError_true_iff envs gi).mpr he)]
        omega
      · have hbf : PartOne.slotIsError envs gi = false := by
          simp [PartOne.slotIsError, he]
        rw [if_neg he, if_neg (by simp [hbf])]
        omega
    · rw [h3, applySlot_totalTime, List.map_cons, List.sum_cons]
      by_cases he : (PartOne.slotResult envs gi).status = "error"
      · have hst : PartOne.slotTime envs gi = 0 := by
          simp [PartOne.slotTime, (slotIsError_true_iff envs gi).mpr he]
        rw [if_pos he, hst]
        omega
      · have hbf : PartOne.slotIsError envs gi = false := by
          simp [PartOne.slotIsError, he]
        have hst : PartOne.slotTime envs gi
            = (PartOne.slotResult envs gi).timeMs := by
          simp [PartOne.slotTime, hbf]
        rw [if_neg he, hst]
        omega

theorem runSlots_append (abort : Nat → Bool) (envs : Nat → PartOne.SlotEnv) :
    ∀ (l1 l2 : List Nat) (st : PartOne.ScanState),
      PartOne.runSlots abort envs (l1 ++ l2) st
        = PartOne.runSlots abort envs l2 (PartOne.runSlots abort envs l1 st) := by
  intro l1
  induction l1 with
  | nil => intro l2 st; rfl
  | cons gi rest ih =>
    intro l2 st
    rw [List.cons_append, runSlots_cons, runSlots_cons]
    by_cases h : abort gi = true
    · rw [if_pos h, if_pos h, ih]
    · rw [if_neg h, if_neg h, ih]

theorem runBatches_noabort (envs : Nat → PartOne.SlotEnv) :
    ∀ (batches : List (List Nat)) (st : PartOne.ScanState),
      PartOne.runBatches (fun _ => false) envs batches st
        = PartOne.runSlots (fun _ => false) envs batches.flatten st := by
  intro batches
  induction batches with
  | nil => intro st; rfl
  | cons b rest ih =>
    intro st
    cases rest with
    | nil =>
      rw [runBatches_single, List.flatten_cons, List.flatten_nil, List.append_nil]
    | cons nb rest2 =>
      rw [runBatches_cons2, if_neg (by simp), ih]
      rw [show ((b :: nb :: rest2).flatten : List Nat)
            = b ++ (nb :: rest2).flatten from rfl,
        runSlots_append]

theorem runScan_noabort_closed (domains : List String)
    (envs : Nat → PartOne.SlotEnv) :
    (PartOne.runScan domains envs (fun _ => false)).done = domains.length ∧
    (PartOne.runScan domains envs (fun _ => false)).errors
        = (List.range domains.length).countP (PartOne.slotIsError envs) ∧
    (PartOne.runScan domains envs (fun _ => false)).totalTime
        = ((List.range domains.length).map (PartOne.slotTime envs)).sum := by
  have hrw : PartOne.runScan domains envs (fun _ => false)
      = PartOne.runSlots (fun _ => false) envs (List.range domains.length)
        { rows := PartOne.initRows domains, done := 0, errors := 0
        , totalTime := 0, processed := [] } := by
    unfold PartOne.runScan
    rw [runBatches_noabort, chunk_join]
  obtain ⟨h1, h2, h3⟩ := runSlots_closed envs (List.range domains.length)
    { rows := PartOne.initRows domains, done := 0, errors := 0
    , totalTime := 0, processed := [] }
  rw [hrw]
  refine ⟨?_, ?_, ?_⟩
  · rw [h1]; simp
  · rw [h2]; simp
  · rw [h3]; simp

/-- C7 (amended).  For every cancellation-free run of the part_001 scanner,
the final avg statistic equals the arithmetic mean of the lookup latencies
over the non-error records, rounded to the nearest integer (Math.round,
half up; the divisor is clamped to 1 so the avg is 0 when every record
errored); in particular, for records with lookup latencies [10, 20] plus
one error record the average is exactly 15. -/
theorem spec_c7_amended (domains : List String) (envs : Nat → PartOne.SlotEnv) :
    (PartOne.runScan domains envs (fun _ => false)).avg
        = jsRoundDiv (((List.range domains.length).map (PartOne.slotTime envs)).sum)
            (max 1 (domains.length
              - (List.range domains.length).countP (PartOne.slotIsError envs))) ∧
    (PartOne.runScan ["a.com", "b.com", "c.com"]
        (fun i =>
          if i = 0 then
            ⟨Avail.ok true none none 10, Avail.ok true none none 10,
             sentinelEnrich, 10⟩
          else if i = 1 then
            ⟨Avail.ok true none none 20, Avail.ok true none none 20,
             sentinelEnrich, 20⟩
          else ⟨Avail.err "x", Avail.err "y", sentinelEnrich, 0⟩)
        (fun _ => false)).avg = 15 := by
  constructor
  · obtain ⟨h1, h2, h3⟩ := runScan_noabort_closed domains envs
    rw [PartOne.ScanState.avg, h1, h2, h3]
  · rfl

/-- C7 (counterexample).  A cancellation-free two-domain run with lookup
latencies 10 and 21 (no errors) ends with avg = 16, whereas the arithmetic
mean of the latencies is 31/2 = 15.5: the aggregate is the rounded mean,
not the mean itself as the claim states. -/
theorem spec_c7_counterexample :
    (PartOne.runScan ["a.com", "b.com"]
        (fun i =>
          if i = 0 then
            ⟨Avail.ok true none none 10, Avail.ok true none none 10,
             sentinelEnrich, 10⟩
          else
            ⟨Avail.ok true none none 21, Avail.ok true none none 21,
             sentinelEnrich, 21⟩)
        (fun _ => false)).avg = 16 ∧
    ((16 : ℚ) ≠ (10 + 21) / 2) :=
  ⟨rfl, by norm_num⟩

/- ===== CSV lemmas ===== -/

theorem parseQ_cons2 (c d : Char) (rest acc : List Char) :
    CSV.parseQ (c :: d :: rest) acc
      = if c = '"' then
          if d = '"' then CSV.parseQ rest ('"' :: acc)
          else some (acc.reverse, d :: rest)
        else CSV.parseQ (d :: rest) (c :: acc) :=
  rfl

theorem parseQ_spec : ∀ (F acc tail : List Char), tail.head? ≠ some '"' →
    CSV.parseQ (CSV.escQ F ++ '"' :: tail) acc = some (acc.reverse ++ F, tail) := by
  intro F
  induction F with
  | nil =>
    intro acc tail ht
    cases tail with
    | nil => simp [CSV.escQ, CSV.parseQ]
    | cons d rest =>
      have hd : d ≠ '"' := fun h => ht (by rw [h]; rfl)
      rw [show CSV.escQ [] ++ '"' :: d :: rest = '"' :: d :: rest from rfl,
        parseQ_cons2, if_pos rfl, if_neg hd]
      simp
  | cons c F ih =>
    intro acc tail ht
    by_cases hc : c = '"'
    · subst hc
      rw [show CSV.escQ ('"' :: F) ++ '"' :: tail
            = '"' :: '"' :: (CSV.escQ F ++ '"' :: tail) from rfl,
        parseQ_cons2, if_pos rfl, if_pos rfl, ih ('"' :: acc) tail ht]
      simp
    · have hel : ∃ e l2, CSV.escQ F ++ '"' :: tail = e :: l2 := by
        cases hl : CSV.escQ F ++ '"' :: tail with
        | nil => exact absurd hl (by simp)
        | cons e l2 => exact ⟨e, l2, rfl⟩
      obtain ⟨e, l2, hel⟩ := hel
      rw [show CSV.escQ (c :: F) ++ '"' :: tail
            = c :: (CSV.escQ F ++ '"' :: tail) by simp [CSV.escQ, hc]]
      rw [hel, parseQ_cons2, if_neg hc, ← hel, ih (c :: acc) tail ht]
      simp

theorem parseQ_spec0 (F tail : List Char) (ht : tail.head? ≠ some '"') :
    CSV.parseQ (CSV.escQ F ++ '"' :: tail) [] = some (F, tail) := by
  simpa using parseQ_spec F [] tail ht

theorem parseRowF_quote (fuel : Nat) (rest : List Char) :
    CSV.parseRowF (fuel + 1) ('"' :: rest)
      = match CSV.parseQ rest [] with
        | none => none
        | some (f, rest2) =>
          match rest2 with
          | [] => some ([f], [])
          | d :: more =>
            if d = ',' then
              match CSV.parseRowF fuel more with
              | some (fs, rem) => some (f :: fs, rem)
              | none => none
            else some ([f], d :: more) :=
  rfl

theorem parseRowF_spec :
    ∀ (fields : List (List Char)) (fuel : Nat) (tail : List Char),
      fields ≠ [] → fields.length ≤ fuel →
      tail.head? ≠ some '"' → tail.head? ≠ some ',' →
      CSV.parseRowF fuel (CSV.renderRow fields ++ tail) = some (fields, tail) := by
  intro fields
  induction fields with
  | nil => intro fuel tail h; exact absurd rfl h
  | cons f fs ih =>
    intro fuel tail hne hlen ht1 ht2
    cases fuel with
    | zero => simp at hlen
    | succ fuel =>
      cases fs with
      | nil =>
        rw [show CSV.renderRow [f] ++ tail
              = '"' :: (CSV.escQ f ++ '"' :: tail) by
            simp [CSV.renderRow, CSV.renderField]]
        rw [parseRowF_quote, parseQ_spec0 f tail ht1]
        cases tail with
        | nil => rfl
        | cons d rest =>
          have hd : d ≠ ',' := fun h => ht2 (by rw [h]; rfl)
          simp [hd]
      | cons f2 fs2 =>
        rw [show CSV.renderRow (f :: f2 :: fs2) ++ tail
              = '"' :: (CSV.escQ f
                  ++ '"' :: (',' :: (CSV.renderRow (f2 :: fs2) ++ tail))) by
            simp [CSV.renderRow, CSV.renderField]]
        rw [parseRowF_quote,
          parseQ_spec0 f (',' :: (CSV.renderRow (f2 :: fs2) ++ tail)) (by simp)]
        dsimp only
        rw [ih fuel tail (by simp) (by
          simp only [List.length_cons] at hlen ⊢
          omega) ht1 ht2]
        rfl

theorem parseRowF_spec2 (fields : List (List Char)) (fuel : Nat)
    (tail L : List Char) (hL : L = CSV.renderRow fields ++ tail)
    (hne : fields ≠ []) (hlen : fields.length ≤ fuel)
    (ht1 : tail.head? ≠ some '"') (ht2 : tail.head? ≠ some ',') :
    CSV.parseRowF fuel L = some (fields, tail) := by
  subst hL
  exact parseRowF_spec fields fuel tail hne hlen ht1 ht2

theorem renderRow_quote_head (fields : List (List Char)) (h : fields ≠ []) :
    ∃ t, CSV.renderRow fields = '"' :: t := by
  cases fields with
  | nil => exact absurd rfl h
  | cons f fs =>
    cases fs with
    | nil => exact ⟨_, rfl⟩
    | cons f2 fs2 => exact ⟨_, rfl⟩

theorem renderRow_length :
    ∀ (fields : List (List Char)), fields ≠ [] →
      fields.length ≤ (CSV.renderRow fields).length := by
  intro fields
  induction fields with
  | nil => intro h; exact absurd rfl h
  | cons f fs ih =>
    intro _
    cases fs with
    | nil => simp [CSV.renderRow, CSV.renderField]
    | cons f2 fs2 =>
      have h2 := ih (by simp)
      rw [show CSV.renderRow (f :: f2 :: fs2)
            = CSV.renderField f ++ ',' :: CSV.renderRow (f2 :: fs2) from rfl]
      simp only [CSV.renderField, List.length_append, List.length_cons] at *
      omega

theorem parseFileF_succ_cons (fuel : Nat) (c : Char) (cs : List Char) :
    CSV.parseFileF (fuel + 1) (c :: cs)
      = match CSV.parseRowF ((c :: cs).length + 1) (c :: cs) with
        | none => none
        | some (fs, rest) =>
          match rest with
          | [] => some [fs]
          | d :: more =>
            if d = '\n' then
              (CSV.parseFileF fuel more).map (fun rows => fs :: rows)
            else none :=
  rfl

theorem renderFile_length :
    ∀ (rows : List (List (List Char))), (∀ r ∈ rows, r ≠ []) →
      rows.length ≤ (CSV.renderFile rows).length := by
  intro rows
  induction rows with
  | nil => intro _; simp [CSV.renderFile, CSV.joinLines]
  | cons r rs ih =>
    intro h
    obtain ⟨t, hh⟩ := renderRow_quote_head r (h r (by simp))
    cases rs with
    | nil =>
      rw [show CSV.renderFile [r] = CSV.renderRow r from rfl, hh]
      simp
    | cons r2 rs2 =>
      have h2 := ih (fun x hx => h x (List.mem_cons_of_mem _ hx))
      rw [show CSV.renderFile (r :: r2 :: rs2)
            = CSV.renderRow r ++ '\n' :: CSV.renderFile (r2 :: rs2) from rfl]
      simp only [List.length_append, List.length_cons] at *
      omega

theorem parseFileF_spec :
    ∀ (rows : List (List (List Char))) (fuel : Nat),
      (∀ r ∈ rows, r ≠ []) → rows.length < fuel →
      CSV.parseFileF fuel (CSV.renderFile rows) = some rows := by
  intro rows
  induction rows with
  | nil =>
    intro fuel _ hf
    cases fuel with
    | zero => omega
    | succ f => rfl
  | cons r rs ih =>
    intro fuel hne hf
    cases fuel with
    | zero => omega
    | succ fuel =>
      have hr : r ≠ [] := hne r (by simp)
      obtain ⟨t, hh⟩ := renderRow_quote_head r hr
      have hrlen := renderRow_length r hr
      cases rs with
      | nil =>
        rw [show CSV.renderFile [r] = CSV.renderRow r from rfl, hh,
          parseFileF_succ_cons]
        rw [parseRowF_spec2 r (('"' :: t).length + 1) [] ('"' :: t)
          (by rw [← hh]; simp) hr
          (by rw [hh] at hrlen; omega) (by simp) (by simp)]
      | cons r2 rs2 =>
        rw [show CSV.renderFile (r :: r2 :: rs2)
              = CSV.renderRow r ++ '\n' :: CSV.renderFile (r2 :: rs2) from rfl]
        rw [hh, List.cons_append, parseFileF_succ_cons]
        rw [parseRowF_spec2 r _ ('\n' :: CSV.renderFile (r2 :: rs2))
          ('"' :: (t ++ '\n' :: CSV.renderFile (r2 :: rs2)))
          (by rw [hh, List.cons_append]) hr
          (by
            rw [hh] at hrlen
            simp only [List.length_cons, List.length_append] at *
            omega)
          (by simp) (by simp)]
        dsimp only
        rw [if_pos rfl]
        rw [ih fuel (fun x hx => hne x (List.mem_cons_of_mem _ hx))
          (by simp only [List.length_cons] at hf ⊢; omega)]
        rfl

theorem parseCSV_render (rows : List (List (List Char)))
    (h : ∀ r ∈ rows, r ≠ []) :
    CSV.parseCSV (CSV.renderFile rows) = some rows := by
  refine parseFileF_spec rows _ h ?_
  have := renderFile_length rows h
  omega

theorem takeWhile_nl :
    ∀ (h b : List Char), (∀ c ∈ h, c ≠ '\n') →
      (h ++ '\n' :: b).takeWhile (fun c => c ≠ '\n') = h
      ∧ (h ++ '\n' :: b).dropWhile (fun c => c ≠ '\n') = '\n' :: b := by
  intro h
  induction h with
  | nil => intro b _; simp
  | cons c cs ih =>
    intro b hh
    have hc : c ≠ '\n' := hh c (by simp)
    obtain ⟨h1, h2⟩ := ih b (fun x hx => hh x (by simp [hx]))
    simp only [List.cons_append, List.takeWhile_cons, List.dropWhile_cons,
      h1, h2]
    simp [hc]

theorem csvRows_ne_nil (rs : List ScanRow) :
    ∀ row ∈ PartOne.csvRows rs, row ≠ [] := by
  intro row hrow
  rcases List.mem_map.mp hrow with ⟨r, _, rfl⟩
  simp [PartOne.rowFields]

theorem headerLineChars_no_nl : ∀ c ∈ PartOne.headerLineChars, c ≠ '\n' := by
  decide

/- ===== Claim C9 ===== -/

/-- C9 (confirmed).  The CSV export quotes every field of every record and
doubles embedded quote characters, and re-parsing the exported text
recovers the unquoted header line and every original record field string
exactly — for all records, including fields containing quotes, commas or
newlines. -/
theorem spec_c9_export_roundtrip (rs : List ScanRow) :
    CSV.parseExport (PartOne.exportCSV rs)
        = some (PartOne.headerLineChars, PartOne.csvRows rs) ∧
    (PartOne.csvRows rs).map (fun row => row.map String.mk)
        = rs.map PartOne.rowFields := by
  constructor
  · cases rs with
    | nil => rfl
    | cons r rest =>
      rw [show PartOne.exportCSV (r :: rest)
            = PartOne.headerLineChars
              ++ '\n' :: CSV.renderFile (PartOne.csvRows (r :: rest)) from rfl]
      obtain ⟨h1, h2⟩ := takeWhile_nl PartOne.headerLineChars
        (CSV.renderFile (PartOne.csvRows (r :: rest))) headerLineChars_no_nl
      unfold CSV.parseExport
      rw [h2]
      dsimp only
      rw [h1, parseCSV_render (PartOne.csvRows (r :: rest))
        (csvRows_ne_nil (r :: rest))]
      rfl
  · have hmk : ∀ s : String, String.mk s.data = s := fun _ => rfl
    simp [PartOne.csvRows, List.map_map, Function.comp_def, hmk]

/- ===== Claim C10 ===== -/

/-- C10 (confirmed).  A relay request with a valid url and no type parameter
is not rejected: both the Express relay (proxy.js) and the serverless relay
(api/cdx.js) default a missing type to "first" and proxy the first-snapshot
query; and the 400 "Invalid type param" response can only arise from a type
value that is present and not one of first, last, year (a missing type never
produces it). -/
theorem spec_c10_relay_type_default (u s : String) (uo : Option String)
    (hu : u ≠ "") :
    ProxyServer.cdxHandler (some u) none = .upstream .first u ∧
    ApiCdx.handler (some u) none = .upstream .first u ∧
    (ProxyServer.cdxHandler uo (some s) = .badRequest "Invalid type param" →
      s ∉ (["first", "last", "year"] : List String)) ∧
    (ApiCdx.handler uo (some s) = .badRequest "Invalid type param" →
      s ∉ (["first", "last", "year"] : List String)) ∧
    ProxyServer.cdxHandler uo none ≠ .badRequest "Invalid type param" ∧
    ApiCdx.handler uo none ≠ .badRequest "Invalid type param" := by
  refine ⟨?_, ?_, ?_, ?_, ?_, ?_⟩
  · simp [ProxyServer.cdxHandler, hu]
  · simp [ApiCdx.handler, hu]
  · intro h hs
    simp only [List.mem_cons, List.mem_singleton, List.not_mem_nil, or_false] at hs
    rcases uo with _ | u2
    · simp [ProxyServer.cdxHandler] at h
    · by_cases h2 : u2 = ""
      · simp [ProxyServer.cdxHandler, h2] at h
      · rcases hs with rfl | rfl | rfl <;> simp [ProxyServer.cdxHandler, h2] at h
  · intro h hs
    simp only [List.mem_cons, List.mem_singleton, List.not_mem_nil, or_false] at hs
    rcases uo with _ | u2
    · simp [ApiCdx.handler] at h
    · by_cases h2 : u2 = ""
      · simp [ApiCdx.handler, h2] at h
      · rcases hs with rfl | rfl | rfl <;> simp [ApiCdx.handler, h2] at h
  · rcases uo with _ | u2
    · simp [ProxyServer.cdxHandler]
    · by_cases h2 : u2 = "" <;> simp [ProxyServer.cdxHandler, h2]
  · rcases uo with _ | u2
    · simp [ApiCdx.handler]
    · by_cases h2 : u2 = "" <;> simp [ApiCdx.handler, h2]

/-- C10 (witness).  The relay theorem applied at the concrete url
"example.com", type value "bogus" and url parameter some "x.com". -/
theorem spec_c10_relay_witness :
    ProxyServer.cdxHandler (some "example.com") none
        = .upstream .first "example.com" ∧
    ApiCdx.handler (some "example.com") none = .upstream .first "example.com" ∧
    (ProxyServer.cdxHandler (some "x.com") (some "bogus")
        = .badRequest "Invalid type param" →
      "bogus" ∉ (["first", "last", "year"] : List String)) ∧
    (ApiCdx.handler (some "x.com") (some "bogus")
        = .badRequest "Invalid type param" →
      "bogus" ∉ (["first", "last", "year"] : List String)) ∧
    ProxyServer.cdxHandler (some "x.com") none
        ≠ .badRequest "Invalid type param" ∧
    ApiCdx.handler (some "x.com") none ≠ .badRequest "Invalid type param" :=
  spec_c10_relay_type_default "example.com" "bogus" (some "x.com") (by decide)

end Checknam
